import Mathlib

/-!
Verification of the VetoDB backup/restore migration engine (`src/bin/index.js`)
and the CRUD table-creation layer (`src/src/index.js`) against the repository's
specification.

The embedding models a database visible through the sqlite3 driver as a list of
tables; a table carries its name, its column (name, declared-type) pairs in
`PRAGMA table_info` order, and its rows in `SELECT *` order.  Scalar values are
the engine's dynamic scalars restricted to null, integer and text (floating
point reals are outside the embedding).  The script serialises every row value
into a SQL literal with its `toString` helper and the engine re-parses that
literal at `INSERT` time; `decodeLiteral` models that re-parsing (no escape
processing, as the script performs none).  Column-affinity coercions of the
engine are not modelled: values stored in a real database are fixpoints of
those coercions, on which the engine behaves like this model.
-/

namespace VetoDB

/-- A scalar value of the embedded engine's dynamic typing, as surfaced to the
script by the sqlite3 driver: `null`, a JavaScript integer number, or text. -/
inductive Value where
  | vNull : Value
  | vInt (i : Int) : Value
  | vText (s : String) : Value
deriving DecidableEq, Repr

/-- One column of `PRAGMA table_info`: its name and declared type. -/
structure Column where
  name : String
  type : String
deriving DecidableEq, Repr

/-- A row as the driver returns it: column name / value pairs in the driver's
key order (`Object.keys` order in the script). -/
abbrev Row := List (String × Value)

/-- One user table: catalog name, `table_info` schema, and rows. -/
structure Table where
  name : String
  schema : List Column
  rows : List Row
deriving DecidableEq, Repr

/-- A database file as seen through one sqlite3 handle. -/
abbrev DB := List Table

/-- The single-quote character used by the script's string serialisation. -/
def sq : Char := '\''

/-- The single-quote as a one-character string. -/
def sqStr : String := String.mk [sq]

/-- Decimal digit to character, for JavaScript's `Number.prototype.toString`. -/
def digitChar : Nat → Char
  | 0 => '0'
  | 1 => '1'
  | 2 => '2'
  | 3 => '3'
  | 4 => '4'
  | 5 => '5'
  | 6 => '6'
  | 7 => '7'
  | 8 => '8'
  | 9 => '9'
  | _ => '?'

/-- Character back to decimal digit (engine side of literal parsing). -/
def charVal : Char → Nat
  | '0' => 0
  | '1' => 1
  | '2' => 2
  | '3' => 3
  | '4' => 4
  | '5' => 5
  | '6' => 6
  | '7' => 7
  | '8' => 8
  | '9' => 9
  | _ => 0

/-- Little-endian base-10 digits of `n`, with explicit fuel so that the
recursion is structural. -/
def digitsFuel : Nat → Nat → List Nat
  | 0, _ => []
  | _ + 1, 0 => []
  | f + 1, n + 1 => (n + 1) % 10 :: digitsFuel f ((n + 1) / 10)

/-- Little-endian base-10 digits of `n` (empty for 0). -/
def natDigits (n : Nat) : List Nat := digitsFuel n n

/-- Decimal representation of a natural number as JavaScript prints it. -/
def natRepr (n : Nat) : List Char :=
  if n = 0 then ['0'] else ((natDigits n).map digitChar).reverse

/-- Decimal representation of an integer as JavaScript's `toString` prints it. -/
def intRepr : Int → String
  | .ofNat n => String.mk (natRepr n)
  | .negSucc n => String.mk ('-' :: natRepr (n + 1))

/-- The script's `toString` helper (src/bin/index.js): `null`/`undefined`
serialise to the literal `NULL`, a string to a quote-wrapped literal with no
escaping, and a number to its JavaScript decimal notation. -/
def toString : Value → String
  | .vNull => "NULL"
  | .vText s => sqStr ++ s ++ sqStr
  | .vInt i => intRepr i

/-- Value of a little-endian digit list. -/
def ofDigitsLE : List Nat → Nat
  | [] => 0
  | d :: ds => d + 10 * ofDigitsLE ds

/-- Engine-side parse of an unsigned decimal numeral. -/
def parseNatChars (l : List Char) : Option Nat :=
  if l.isEmpty then none
  else if l.all Char.isDigit then some (ofDigitsLE ((l.map charVal).reverse))
  else none

/-- Engine-side parse of a possibly negated decimal numeral. -/
def parseIntChars : List Char → Option Int
  | '-' :: rest => (parseNatChars rest).map (fun n => -(n : Int))
  | l => (parseNatChars l).map (fun n => (n : Int))

/-- Engine-side parse of one serialised scalar literal, over its characters:
the token `NULL`, a quote-delimited text literal (rejected when an unescaped
interior quote makes the statement malformed), or a decimal numeral.  `none`
models a statement the engine rejects. -/
def decodeChars (l : List Char) : Option Value :=
  if l = "NULL".data then some .vNull
  else
    match l with
    | [] => none
    | c :: cs =>
      if c = sq then
        match cs.getLast? with
        | some d =>
          if d = sq ∧ (cs.dropLast.all (fun e => e ≠ sq)) then
            some (.vText (String.mk cs.dropLast))
          else none
        | none => none
      else (parseIntChars (c :: cs)).map Value.vInt

/-- Engine-side parse of one serialised scalar literal. -/
def decodeLiteral (s : String) : Option Value := decodeChars s.data

/-- `SELECT name FROM sqlite_master WHERE type='table'`: the catalog's table
names in catalog order. -/
def listTables (db : DB) : List String := db.map (·.name)

/-- Find the table a name denotes. -/
def lookupTable (db : DB) (n : String) : Option Table :=
  db.find? (fun t => t.name == n)

/-- `PRAGMA table_info(n)`: the column descriptors, `[]` when the catalog and
the per-table schema view have diverged (or the table is absent). -/
def tableInfo (db : DB) (n : String) : List Column :=
  match lookupTable db n with
  | some t => t.schema
  | none => []

/-- `SELECT * FROM n`: every row of the table, in the engine's order. -/
def selectAll (db : DB) (n : String) : List Row :=
  match lookupTable db n with
  | some t => t.rows
  | none => []

/-- Whether a table of this name exists. -/
def hasTable (db : DB) (n : String) : Bool :=
  db.any (fun t => t.name == n)

/-- `CREATE TABLE IF NOT EXISTS n (...)`: a no-op when the name exists,
otherwise a fresh empty table with the given column definitions. -/
def createTableIfNotExists (db : DB) (n : String) (cols : List Column) : DB :=
  if hasTable db n then db else db ++ [⟨n, cols, []⟩]

/-- Append a row to every table of the given name (their schemas untouched). -/
def appendRow (db : DB) (n : String) (r : Row) : DB :=
  db.map (fun t => if t.name == n then { t with rows := t.rows ++ [r] } else t)

/-- `INSERT INTO n (keys) VALUES (lits)`: the engine parses each serialised
literal and stores the keyed values; `none` models a rejected statement
(malformed literal or missing table). -/
def insertRow (db : DB) (n : String) (keys : List String) (lits : List String) :
    Option DB :=
  match lits.mapM decodeLiteral with
  | none => none
  | some vs => if hasTable db n then some (appendRow db n (keys.zip vs)) else none

/-- The keys of a row, `Object.keys(row)` in the script. -/
def rowKeys (r : Row) : List String := r.map (·.1)

/-- The serialised values of a row, `Object.values(row).map(toString)`. -/
def rowLits (r : Row) : List String := r.map (fun kv => toString kv.2)

/-- The script's per-row insert loop: inserts rows one by one, stopping at the
first statement the engine rejects; the flag records whether all rows were
inserted, and the database reflects every insert up to the failure. -/
def insertRows (db : DB) (n : String) : List Row → Bool × DB
  | [] => (true, db)
  | r :: rs =>
    match insertRow db n (rowKeys r) (rowLits r) with
    | some db2 => insertRows db2 n rs
    | none => (false, db)

/-- The engine's reserved sequence-counter table name. -/
def seqName : String := "sqlite_sequence"

/-- Error text printed for a table whose schema read came back empty. -/
def missingMsg (n : String) : String :=
  "The table " ++ n ++ " doesn't bloody exist in the original database."

/-- Header used by the script for engine failures. -/
def sqlErrHeader : String := "SQL Execution Error"

/-- Generic text the catch-block prints for a rejected statement. -/
def sqlErrMsg : String := "An error occurred during SQL execution."

/-- Text returned when the source lists no tables. -/
def noTablesMsg : String := "No tables available for backup."

/-- Outcome of one per-table loop: normal completion, or the state at which
`error(...)` ran `process.exit(1)` (the `continue` after it is unreachable). -/
inductive LoopResult where
  | done (dest : DB)
  | failed (header msg : String) (dest : DB)
deriving DecidableEq, Repr

/-- The per-table loop of `backup_db`: skip the sequence-counter table, read
the schema (exiting with an error when it is empty), create the destination
table idempotently, then copy every row through serialised literals. -/
def backupLoop (src : DB) (names : List String) (dest : DB) : LoopResult :=
  match names with
  | [] => .done dest
  | n :: ns =>
    if n = seqName then backupLoop src ns dest
    else
      let schema := tableInfo src n
      if schema.isEmpty then .failed sqlErrHeader (missingMsg n) dest
      else
        let dest1 := createTableIfNotExists dest n schema
        match insertRows dest1 n (selectAll src n) with
        | (true, dest2) => backupLoop src ns dest2
        | (false, dest2) => .failed sqlErrHeader sqlErrMsg dest2

/-- What `backup_db`/`restore_db` deliver: the elapsed-milliseconds return
value, the informational string for an empty source, or the message printed
before `process.exit(1)`. -/
inductive MigOutcome where
  | success (durationMs : Nat)
  | noTables (msg : String)
  | aborted (header msg : String)
deriving DecidableEq, Repr

/-- `backup_db(file, folder)` on already-opened handles: source and destination
database states in, outcome plus final destination state out.  The start and
end timestamps are passed in as the clock is external to the algorithm. -/
def backup_db (src dest : DB) (startTime endTime : Nat) : MigOutcome × DB :=
  let tables := listTables src
  if tables.isEmpty then (.noTables noTablesMsg, dest)
  else
    match backupLoop src tables dest with
    | .done d => (.success (endTime - startTime), d)
    | .failed h m d => (.aborted h m, d)

/-- JavaScript truthiness of a scalar as `if (row?._id)` tests it: `null`,
`0` and the empty string are falsy. -/
def truthy : Value → Bool
  | .vNull => false
  | .vInt i => decide (i ≠ 0)
  | .vText s => decide (s ≠ "")

/-- The restore direction's `if (row?._id) delete row._id;`: the `_id` key is
removed from the row only when its value is truthy. -/
def stripId (r : Row) : Row :=
  match r.lookup "_id" with
  | some v => if truthy v then r.filter (fun kv => kv.1 ≠ "_id") else r
  | none => r

/-- The per-table loop of `restore_db`: identical to the backup loop except
that each row passes through `stripId` before serialisation. -/
def restoreLoop (bk : DB) (names : List String) (live : DB) : LoopResult :=
  match names with
  | [] => .done live
  | n :: ns =>
    if n = seqName then restoreLoop bk ns live
    else
      let schema := tableInfo bk n
      if schema.isEmpty then .failed sqlErrHeader (missingMsg n) live
      else
        let live1 := createTableIfNotExists live n schema
        match insertRows live1 n ((selectAll bk n).map stripId) with
        | (true, live2) => restoreLoop bk ns live2
        | (false, live2) => .failed sqlErrHeader sqlErrMsg live2

/-- `restore_db(file, backup)` on already-opened handles: the backup file is
the source, the live file the destination. -/
def restore_db (live bk : DB) (startTime endTime : Nat) : MigOutcome × DB :=
  let tables := listTables bk
  if tables.isEmpty then (.noTables noTablesMsg, live)
  else
    match restoreLoop bk tables live with
    | .done d => (.success (endTime - startTime), d)
    | .failed h m d => (.aborted h m, d)

/-- The identity column every CRUD-created table starts with, as declared by
`VetoClient.createTable` (src/src/index.js). -/
def idColumn : Column := ⟨"_id", "INTEGER PRIMARY KEY AUTOINCREMENT"⟩

/-- The CRUD layer's column validation: `/[^A-Za-z0-9]/g.test(column)` must be
false, i.e. every character is ASCII alphanumeric. -/
def validColumn (c : String) : Bool :=
  c.data.all (fun ch => ch.isAlpha || ch.isDigit)

/-- `VetoClient.createTable(name, columns)`: validation, then
`CREATE TABLE IF NOT EXISTS name (_id INTEGER PRIMARY KEY AUTOINCREMENT,
c1, c2, ...)` — the user columns are bare validated names, so their declared
type text is empty.  (Error codes 151/152 concern a missing or non-array
argument, unrepresentable for a `List String` parameter.) -/
def createTable (db : DB) (name : String) (columns : List String) :
    Except (Nat × String) DB :=
  if name = "" then .error (150, "No table name provided")
  else if columns.isEmpty then
    .error (153, "Columns must have at least one column")
  else if !(columns.all validColumn) then
    .error (154, "One or more columns contain forbidden characters. Expression: 'A-Za-z0-9'")
  else
    .ok (createTableIfNotExists db name
      (idColumn :: columns.map (fun c => ⟨c, ""⟩)))

/-- Whether a scalar survives the serialise/parse round trip untouched: only a
text value with an embedded quote does not (the script escapes nothing). -/
def quoteFreeV : Value → Bool
  | .vText s => s.data.all (fun c => c ≠ sq)
  | _ => true

/-- A well-formed user table as a real engine would hand it to the script:
not the sequence counter, a nonempty discovered schema, rows keyed exactly by
the discovered columns, and no text value carrying an embedded quote. -/
def wfTable (t : Table) : Bool :=
  decide (t.name ≠ seqName) && !t.schema.isEmpty &&
    t.rows.all (fun r =>
      decide (rowKeys r = t.schema.map (·.name)) && r.all (fun kv => quoteFreeV kv.2))

/-- A well-formed source database: distinct table names and well-formed
tables. -/
def wfSource (db : DB) : Bool :=
  decide (listTables db).Nodup && db.all wfTable

/-! Helper lemmas: the serialise/parse round trip for scalar values. -/

lemma digitsFuel_lt (f n : Nat) : ∀ d ∈ digitsFuel f n, d < 10 := by
  induction f generalizing n with
  | zero => simp [digitsFuel]
  | succ f ih =>
    cases n with
    | zero => simp [digitsFuel]
    | succ m =>
      intro d hd
      simp only [digitsFuel, List.mem_cons] at hd
      rcases hd with h | h
      · subst h; omega
      · exact ih _ _ h

lemma ofDigitsLE_digitsFuel (f n : Nat) (h : n ≤ f) :
    ofDigitsLE (digitsFuel f n) = n := by
  induction f generalizing n with
  | zero =>
    interval_cases n
    rfl
  | succ f ih =>
    cases n with
    | zero => rfl
    | succ m =>
      have hdiv : (m + 1) / 10 ≤ f := by
        have := Nat.div_lt_self (Nat.succ_pos m) (by norm_num : 1 < 10)
        omega
      simp only [digitsFuel, ofDigitsLE, ih _ hdiv]
      exact Nat.mod_add_div (m + 1) 10

lemma charVal_digitChar {d : Nat} (h : d < 10) : charVal (digitChar d) = d := by
  interval_cases d <;> rfl

lemma isDigit_digitChar {d : Nat} (h : d < 10) : (digitChar d).isDigit = true := by
  interval_cases d <;> rfl

lemma natRepr_all_digits (n : Nat) : (natRepr n).all Char.isDigit = true := by
  rw [natRepr]
  split
  · rfl
  · rw [List.all_eq_true]
    intro c hc
    rw [List.mem_reverse, List.mem_map] at hc
    obtain ⟨d, hd, rfl⟩ := hc
    exact isDigit_digitChar (digitsFuel_lt n n d hd)

lemma natRepr_ne_nil (n : Nat) : natRepr n ≠ [] := by
  rw [natRepr]
  split
  · simp
  · next h =>
    cases n with
    | zero => exact absurd rfl h
    | succ m =>
      simp only [natDigits, digitsFuel, List.map_cons, List.reverse_cons, ne_eq,
        List.append_eq_nil]
      simp

lemma parseNatChars_natRepr (n : Nat) : parseNatChars (natRepr n) = some n := by
  rw [parseNatChars, if_neg (by simp [natRepr_ne_nil n]), if_pos (natRepr_all_digits n)]
  congr 1
  rw [natRepr]
  split
  · next h => subst h; rfl
  · rw [natDigits, List.map_reverse, List.reverse_reverse, List.map_map]
    have hmap : List.map (charVal ∘ digitChar) (digitsFuel n n) = digitsFuel n n := by
      conv_rhs => rw [← List.map_id (digitsFuel n n)]
      apply List.map_congr_left
      intro d hd
      exact charVal_digitChar (digitsFuel_lt n n d hd)
    rw [hmap]
    exact ofDigitsLE_digitsFuel n n le_rfl

lemma natRepr_head_digit (n : Nat) :
    ∃ c cs, natRepr n = c :: cs ∧ c.isDigit = true := by
  rcases hl : natRepr n with _ | ⟨c, cs⟩
  · exact absurd hl (natRepr_ne_nil n)
  · refine ⟨c, cs, rfl, ?_⟩
    have := natRepr_all_digits n
    rw [hl, List.all_cons, Bool.and_eq_true] at this
    exact this.1

lemma parseIntChars_not_neg {c : Char} (cs : List Char) (h : c ≠ '-') :
    parseIntChars (c :: cs) = (parseNatChars (c :: cs)).map (fun n => (n : Int)) := by
  rw [parseIntChars.eq_def]
  split
  · next heq => exact absurd (List.cons_eq_cons.mp heq).1 h
  · rfl

lemma parseIntChars_intRepr (i : Int) : parseIntChars (intRepr i).data = some i := by
  cases i with
  | ofNat n =>
    obtain ⟨c, cs, hrep, hc⟩ := natRepr_head_digit n
    have hdata : (intRepr (Int.ofNat n)).data = c :: cs := by
      simp [intRepr, hrep]
    rw [hdata]
    have hcne : c ≠ '-' := by
      intro h
      rw [h] at hc
      exact absurd hc (by decide)
    rw [parseIntChars_not_neg cs hcne, ← hrep, parseNatChars_natRepr]
    rfl
  | negSucc n =>
    have hdata : (intRepr (Int.negSucc n)).data = '-' :: natRepr (n + 1) := rfl
    rw [hdata, parseIntChars, parseNatChars_natRepr]
    simp [Int.negSucc_eq]

lemma decode_toString {v : Value} (h : quoteFreeV v = true) :
    decodeLiteral (toString v) = some v := by
  cases v with
  | vNull => rfl
  | vInt i =>
    obtain ⟨c, cs, hrep, hc⟩ := (by
      cases i with
      | ofNat n =>
        obtain ⟨c, cs, h1, h2⟩ := natRepr_head_digit n
        exact ⟨c, cs, by simp [intRepr, h1], Or.inl h2⟩
      | negSucc n => exact ⟨'-', natRepr (n + 1), rfl, Or.inr rfl⟩ :
      ∃ c cs, (intRepr i).data = c :: cs ∧ (c.isDigit = true ∨ c = '-'))
    rw [toString, decodeLiteral, hrep, decodeChars]
    rw [if_neg (by
      intro hcon
      have : c = 'N' := (List.cons_eq_cons.mp hcon).1
      rcases hc with hd | hm
      · rw [this] at hd; exact absurd hd (by decide)
      · rw [this] at hm; exact absurd hm (by decide))]
    have hcsq : ¬ c = sq := by
      intro hcon
      rcases hc with hd | hm
      · rw [hcon] at hd; exact absurd hd (by decide)
      · rw [hcon] at hm; exact absurd hm.symm (by decide)
    rw [if_neg hcsq, ← hrep, parseIntChars_intRepr]
    rfl
  | vText s =>
    rw [quoteFreeV] at h
    rw [toString, decodeLiteral]
    have hdata : (sqStr ++ s ++ sqStr).data = sq :: (s.data ++ [sq]) := by
      rw [String.data_append, String.data_append]
      rfl
    rw [hdata, decodeChars]
    rw [if_neg (by
      intro hcon
      have : sq = 'N' := (List.cons_eq_cons.mp hcon).1
      exact absurd this (by decide))]
    rw [if_pos rfl, List.getLast?_concat]
    simp only [List.dropLast_concat, h, and_self, if_pos]

/-! Helper lemmas: behaviour of the per-table copy loop. -/

lemma zip_keys_vals (r : Row) : (rowKeys r).zip (r.map (·.2)) = r := by
  induction r with
  | nil => rfl
  | cons kv r ih => simp [rowKeys] at ih ⊢; exact ih

lemma mapM_rowLits {r : Row}
    (h : ∀ kv ∈ r, decodeLiteral (toString kv.2) = some kv.2) :
    (rowLits r).mapM decodeLiteral = some (r.map (·.2)) := by
  induction r with
  | nil => rfl
  | cons kv r ih =>
    have ih2 := ih (fun kv' h' => h kv' (List.mem_cons_of_mem kv h'))
    simp only [rowLits, List.map_cons, List.mapM_cons] at ih2 ⊢
    rw [h kv (List.mem_cons_self kv r), ih2]
    rfl

lemma insertRow_ok {db : DB} {n : String} {r : Row}
    (hdb : hasTable db n = true)
    (hr : ∀ kv ∈ r, decodeLiteral (toString kv.2) = some kv.2) :
    insertRow db n (rowKeys r) (rowLits r) = some (appendRow db n r) := by
  rw [insertRow, mapM_rowLits hr]
  simp [hdb, zip_keys_vals]

lemma hasTable_concat_self (dest : DB) (n : String) (cols : List Column)
    (rows : List Row) : hasTable (dest ++ [⟨n, cols, rows⟩]) n = true := by
  simp [hasTable]

lemma appendRow_concat {dest : DB} {n : String} (cols : List Column)
    (acc : List Row) (r : Row) (h : hasTable dest n = false) :
    appendRow (dest ++ [⟨n, cols, acc⟩]) n r = dest ++ [⟨n, cols, acc ++ [r]⟩] := by
  rw [appendRow, List.map_append]
  congr 1
  · rw [hasTable, List.any_eq_false] at h
    conv_rhs => rw [← List.map_id dest]
    apply List.map_congr_left
    intro t ht
    rw [if_neg (by simpa using h t ht)]
    rfl
  · simp

lemma insertRows_concat {dest : DB} {n : String} (cols : List Column)
    (acc rows : List Row) (h : hasTable dest n = false)
    (hr : ∀ r ∈ rows, ∀ kv ∈ r, decodeLiteral (toString kv.2) = some kv.2) :
    insertRows (dest ++ [⟨n, cols, acc⟩]) n rows =
      (true, dest ++ [⟨n, cols, acc ++ rows⟩]) := by
  induction rows generalizing acc with
  | nil => simp [insertRows]
  | cons r rs ih =>
    simp only [insertRows,
      insertRow_ok (hasTable_concat_self dest n cols acc)
        (hr r (List.mem_cons_self r rs)),
      appendRow_concat cols acc r h,
      ih (acc ++ [r]) (fun r' h' kv hv => hr r' (List.mem_cons_of_mem r h') kv hv)]
    simp

lemma hasTable_concat_other {dest : DB} {n m : String} (cols : List Column)
    (rows : List Row) (hnm : m ≠ n) :
    hasTable (dest ++ [⟨n, cols, rows⟩]) m = hasTable dest m := by
  simp [hasTable, Ne.symm hnm]

lemma backupLoop_ok (src : DB) (names : List String) (dest : DB)
    (h1 : ∀ n ∈ names, n ≠ seqName)
    (h2 : ∀ n ∈ names, tableInfo src n ≠ [])
    (h3 : ∀ n ∈ names, ∀ r ∈ selectAll src n, ∀ kv ∈ r,
      decodeLiteral (toString kv.2) = some kv.2)
    (h4 : names.Nodup)
    (h5 : ∀ n ∈ names, hasTable dest n = false) :
    backupLoop src names dest =
      .done (dest ++ names.map (fun n => ⟨n, tableInfo src n, selectAll src n⟩)) := by
  induction names generalizing dest with
  | nil => simp [backupLoop]
  | cons n ns ih =>
    have hn : n ∈ n :: ns := List.mem_cons_self n ns
    have hE : ¬((tableInfo src n).isEmpty = true) := by
      simpa [List.isEmpty_iff] using h2 n hn
    have hht : hasTable dest n = false := h5 n hn
    have hcr : createTableIfNotExists dest n (tableInfo src n)
        = dest ++ [⟨n, tableInfo src n, []⟩] := by
      rw [createTableIfNotExists, hht]
      rfl
    simp only [backupLoop, if_neg (h1 n hn), if_neg hE, hcr,
      insertRows_concat (tableInfo src n) [] (selectAll src n) hht (h3 n hn),
      List.nil_append]
    have ihh := ih (dest ++ [⟨n, tableInfo src n, selectAll src n⟩])
      (fun m hm => h1 m (List.mem_cons_of_mem n hm))
      (fun m hm => h2 m (List.mem_cons_of_mem n hm))
      (fun m hm => h3 m (List.mem_cons_of_mem n hm))
      (List.Nodup.of_cons h4)
      (fun m hm => by
        rw [hasTable_concat_other (tableInfo src n) (selectAll src n)
          (by rintro rfl; exact (List.nodup_cons.mp h4).1 hm)]
        exact h5 m (List.mem_cons_of_mem n hm))
    rw [ihh]
    simp

lemma lookupTable_of_nodup {db : DB} (hnd : (listTables db).Nodup)
    {t : Table} (ht : t ∈ db) : lookupTable db t.name = some t := by
  induction db with
  | nil => cases ht
  | cons u db ih =>
    rw [listTables, List.map_cons, List.nodup_cons] at hnd
    rcases List.mem_cons.mp ht with rfl | hmem
    · simp [lookupTable]
    · have hne : (u.name == t.name) = false := by
        rw [beq_eq_false_iff_ne]
        intro hcon
        exact hnd.1 (hcon ▸ List.mem_map_of_mem (·.name) hmem)
      simp only [lookupTable, List.find?_cons, hne]
      exact ih hnd.2 hmem

lemma wfSource_spec {db : DB} (h : wfSource db = true) :
    (listTables db).Nodup ∧ ∀ t ∈ db, t.name ≠ seqName ∧ t.schema ≠ [] ∧
      ∀ r ∈ t.rows, rowKeys r = t.schema.map (·.name) ∧
        ∀ kv ∈ r, quoteFreeV kv.2 = true := by
  rw [wfSource, Bool.and_eq_true, decide_eq_true_eq, List.all_eq_true] at h
  refine ⟨h.1, fun t ht => ?_⟩
  have hw := h.2 t ht
  rw [wfTable, Bool.and_eq_true, Bool.and_eq_true, decide_eq_true_eq,
    Bool.not_eq_true', List.all_eq_true] at hw
  refine ⟨hw.1.1, fun hcon => by rw [hcon] at hw; simp at hw, fun r hr => ?_⟩
  have hrow := hw.2 r hr
  rw [Bool.and_eq_true, decide_eq_true_eq, List.all_eq_true] at hrow
  exact ⟨hrow.1, hrow.2⟩

lemma quoteFree_decode {db : DB} (h : wfSource db = true) :
    ∀ n, ∀ r ∈ selectAll db n, ∀ kv ∈ r,
      decodeLiteral (toString kv.2) = some kv.2 := by
  intro n r hr kv hkv
  rw [selectAll] at hr
  rcases hfind : lookupTable db n with _ | t
  · rw [hfind] at hr; cases hr
  · rw [hfind] at hr
    have ht : t ∈ db := List.mem_of_find?_eq_some hfind
    exact decode_toString ((((wfSource_spec h).2 t ht).2.2 r hr).2 kv hkv)

lemma backupLoop_fresh' {src : DB} (hnd : (listTables src).Nodup)
    (hwf : ∀ t ∈ src, t.name ≠ seqName ∧ t.schema ≠ [] ∧
      ∀ r ∈ t.rows, ∀ kv ∈ r, decodeLiteral (toString kv.2) = some kv.2) :
    backupLoop src (listTables src) [] = .done src := by
  rw [backupLoop_ok src (listTables src) []
    (fun n hn => by
      obtain ⟨t, ht, rfl⟩ := List.mem_map.mp hn
      exact (hwf t ht).1)
    (fun n hn => by
      obtain ⟨t, ht, rfl⟩ := List.mem_map.mp hn
      rw [tableInfo, lookupTable_of_nodup hnd ht]
      exact (hwf t ht).2.1)
    (fun n _ r hr kv hkv => by
      rw [selectAll] at hr
      rcases hfind : lookupTable src n with _ | t
      · rw [hfind] at hr; cases hr
      · rw [hfind] at hr
        exact (hwf t (List.mem_of_find?_eq_some hfind)).2.2 r hr kv hkv)
    hnd
    (fun n _ => rfl)]
  rw [List.nil_append]
  congr 1
  conv_rhs => rw [← List.map_id src]
  rw [listTables, List.map_map]
  apply List.map_congr_left
  intro t ht
  rw [Function.comp_apply, tableInfo, selectAll, lookupTable_of_nodup hnd ht]
  rfl

lemma backup_db_fresh' {src : DB} (t1 t2 : Nat)
    (hnd : (listTables src).Nodup)
    (hwf : ∀ t ∈ src, t.name ≠ seqName ∧ t.schema ≠ [] ∧
      ∀ r ∈ t.rows, ∀ kv ∈ r, decodeLiteral (toString kv.2) = some kv.2) :
    (backup_db src [] t1 t2).2 = src := by
  rw [backup_db]
  rcases hsrc : src with _ | ⟨u, us⟩
  · rfl
  · rw [← hsrc]
    rw [if_neg (by rw [hsrc]; simp [listTables])]
    rw [backupLoop_fresh' hnd hwf]

lemma wfSource_unfold {src : DB} (h : wfSource src = true) :
    (listTables src).Nodup ∧ ∀ t ∈ src, t.name ≠ seqName ∧ t.schema ≠ [] ∧
      ∀ r ∈ t.rows, ∀ kv ∈ r, decodeLiteral (toString kv.2) = some kv.2 := by
  obtain ⟨hnd, hwf⟩ := wfSource_spec h
  exact ⟨hnd, fun t ht => ⟨(hwf t ht).1, (hwf t ht).2.1,
    fun r hr kv hkv => decode_toString (((hwf t ht).2.2 r hr).2 kv hkv)⟩⟩

lemma backup_db_fresh {src : DB} (t1 t2 : Nat) (h : wfSource src = true) :
    (backup_db src [] t1 t2).2 = src :=
  backup_db_fresh' t1 t2 (wfSource_unfold h).1 (wfSource_unfold h).2

lemma backup_db_fresh_success {src : DB} (t1 t2 : Nat) (h : wfSource src = true)
    (hne : src ≠ []) : (backup_db src [] t1 t2).1 = .success (t2 - t1) := by
  rw [backup_db]
  rw [if_neg (by simpa [listTables, List.isEmpty_iff] using hne)]
  rw [backupLoop_fresh' (wfSource_unfold h).1 (wfSource_unfold h).2]

/-! Helper lemmas: the restore direction as the backup loop over a stripped
source. -/

/-- The backup database with every row already stripped of a truthy `_id`. -/
def stripDB (db : DB) : DB :=
  db.map (fun t => { t with rows := t.rows.map stripId })

lemma lookupTable_stripDB (db : DB) (n : String) :
    lookupTable (stripDB db) n =
      (lookupTable db n).map (fun t => { t with rows := t.rows.map stripId }) := by
  rw [stripDB, lookupTable, List.find?_map]
  rfl

lemma listTables_stripDB (db : DB) : listTables (stripDB db) = listTables db := by
  rw [stripDB, listTables, List.map_map]
  rfl

lemma tableInfo_stripDB (db : DB) (n : String) :
    tableInfo (stripDB db) n = tableInfo db n := by
  rw [tableInfo, tableInfo, lookupTable_stripDB]
  rcases lookupTable db n with _ | t <;> rfl

lemma selectAll_stripDB (db : DB) (n : String) :
    selectAll (stripDB db) n = (selectAll db n).map stripId := by
  rw [selectAll, selectAll, lookupTable_stripDB]
  rcases lookupTable db n with _ | t <;> rfl

lemma restoreLoop_eq (bk : DB) (names : List String) (live : DB) :
    restoreLoop bk names live = backupLoop (stripDB bk) names live := by
  induction names generalizing live with
  | nil => rfl
  | cons n ns ih =>
    simp only [restoreLoop, backupLoop, tableInfo_stripDB, selectAll_stripDB, ih]

lemma restore_db_eq (live bk : DB) (t1 t2 : Nat) :
    restore_db live bk t1 t2 = backup_db (stripDB bk) live t1 t2 := by
  simp only [restore_db, backup_db, listTables_stripDB, restoreLoop_eq]

lemma stripId_subset {r : Row} : ∀ kv ∈ stripId r, kv ∈ r := by
  intro kv hkv
  rw [stripId] at hkv
  rcases hl : r.lookup "_id" with _ | v
  · simp only [hl] at hkv
    exact hkv
  · simp only [hl] at hkv
    by_cases hv : truthy v = true
    · rw [if_pos hv] at hkv
      exact (List.mem_filter.mp hkv).1
    · rw [if_neg hv] at hkv
      exact hkv

lemma restore_db_fresh {bk : DB} (t1 t2 : Nat) (h : wfSource bk = true) :
    (restore_db [] bk t1 t2).2 = stripDB bk := by
  rw [restore_db_eq]
  obtain ⟨hnd, hwf⟩ := wfSource_unfold h
  refine backup_db_fresh' t1 t2 ?_ ?_
  · rw [listTables_stripDB]; exact hnd
  · intro t' ht'
    rw [stripDB, List.mem_map] at ht'
    obtain ⟨t, ht, rfl⟩ := ht'
    refine ⟨(hwf t ht).1, (hwf t ht).2.1, fun r' hr' kv hkv => ?_⟩
    rw [List.mem_map] at hr'
    obtain ⟨r, hr, rfl⟩ := hr'
    exact (hwf t ht).2.2 r hr kv (stripId_subset kv hkv)

lemma stripId_of_truthy {r : Row} {v : Value} (hid : r.lookup "_id" = some v)
    (hv : truthy v = true) : stripId r = r.filter (fun kv => kv.1 ≠ "_id") := by
  simp only [stripId, hid, if_pos hv]

lemma stripId_of_falsy {r : Row} {v : Value} (hid : r.lookup "_id" = some v)
    (hv : truthy v = false) : stripId r = r := by
  simp only [stripId, hid,
    if_neg (show ¬(truthy v = true) by rw [hv]; exact Bool.false_ne_true)]

/-! Helper lemmas: what a migration run can do to the destination's schemas
and to tables it never targets. -/

/-- The destination state a finished or aborted loop leaves behind. -/
def loopDB : LoopResult → DB
  | .done d => d
  | .failed _ _ d => d

/-- The schema of the table a name denotes, when present. -/
def schemaAt (db : DB) (m : String) : Option (List Column) :=
  (lookupTable db m).map (·.schema)

/-- How one migration pass may change the schema a name denotes: not at all,
or from absent to a nonempty column list. -/
def schemaEvo (old new : Option (List Column)) : Prop :=
  new = old ∨ (old = none ∧ ∃ cols, new = some cols ∧ cols ≠ [])

lemma schemaEvo_refl (o : Option (List Column)) : schemaEvo o o := Or.inl rfl

lemma schemaEvo_trans {a b c : Option (List Column)} (h1 : schemaEvo a b)
    (h2 : schemaEvo b c) : schemaEvo a c := by
  rcases h1 with h1 | ⟨ha, cols, hb, hc⟩
  · rcases h2 with h2 | ⟨hb', h2⟩
    · exact Or.inl (h2.trans h1)
    · exact Or.inr ⟨h1 ▸ hb', h2⟩
  · rcases h2 with h2 | ⟨hb', _⟩
    · exact Or.inr ⟨ha, cols, h2.trans hb, hc⟩
    · rw [hb'] at hb; cases hb

lemma appendRow_name_pred (n m : String) (r : Row) :
    ((fun t : Table => t.name == m) ∘ fun t =>
      if t.name == n then { t with rows := t.rows ++ [r] } else t) =
      (fun t : Table => t.name == m) := by
  funext t
  rw [Function.comp_apply]
  by_cases h : (t.name == n) = true
  · rw [if_pos h]
  · rw [if_neg h]

lemma schemaAt_appendRow (db : DB) (n : String) (r : Row) (m : String) :
    schemaAt (appendRow db n r) m = schemaAt db m := by
  rw [schemaAt, schemaAt, appendRow, lookupTable, lookupTable, List.find?_map,
    appendRow_name_pred n m r]
  rcases hfind : db.find? (fun t => t.name == m) with _ | t
  · rw [hfind]
    rfl
  · rw [hfind, Option.map_some', Option.map_some', Option.map_some']
    by_cases h : (t.name == n) = true
    · rw [if_pos h]
    · rw [if_neg h]

lemma schemaAt_insertRow {db db2 : DB} {n : String} {keys lits : List String}
    (h : insertRow db n keys lits = some db2) (m : String) :
    schemaAt db2 m = schemaAt db m := by
  rw [insertRow] at h
  rcases hM : lits.mapM decodeLiteral with _ | vs
  · simp only [hM] at h
    exact Option.noConfusion h
  · simp only [hM] at h
    by_cases hh : hasTable db n = true
    · rw [if_pos hh] at h
      cases h
      exact schemaAt_appendRow db n (keys.zip vs) m
    · rw [if_neg hh] at h; cases h

lemma schemaAt_insertRows {n : String} {rows : List Row} {db : DB} {b : Bool}
    {db2 : DB} (h : insertRows db n rows = (b, db2)) (m : String) :
    schemaAt db2 m = schemaAt db m := by
  induction rows generalizing db with
  | nil =>
    rw [insertRows] at h
    cases h
    rfl
  | cons r rs ih =>
    rw [insertRows] at h
    rcases hI : insertRow db n (rowKeys r) (rowLits r) with _ | db1
    · rw [hI] at h
      cases h
      rfl
    · rw [hI] at h
      exact (ih h).trans (schemaAt_insertRow hI m)

lemma schemaAt_createTable (db : DB) (n : String) (cols : List Column)
    (hcols : cols ≠ []) (m : String) :
    schemaEvo (schemaAt db m) (schemaAt (createTableIfNotExists db n cols) m) := by
  rw [createTableIfNotExists]
  by_cases hh : hasTable db n = true
  · rw [if_pos hh]
    exact schemaEvo_refl _
  · rw [if_neg hh]
    have hf : hasTable db n = false := by
      cases hx : hasTable db n
      · rfl
      · exact absurd hx hh
    by_cases hm : m = n
    · subst hm
      have hnone : lookupTable db m = none := by
        rw [hasTable] at hf
        rw [lookupTable, List.find?_eq_none]
        exact List.any_eq_false.mp hf
      refine Or.inr ⟨by rw [schemaAt, hnone]; rfl, cols, ?_, hcols⟩
      rw [schemaAt, lookupTable, List.find?_append]
      rw [lookupTable] at hnone
      rw [hnone, Option.none_or]
      simp
    · refine Or.inl ?_
      rw [schemaAt, schemaAt, lookupTable, lookupTable, List.find?_append]
      rcases hfind : db.find? (fun t => t.name == m) with _ | t
      · rw [hfind, Option.none_or]
        simp [List.find?_cons, Ne.symm hm]
      · rw [hfind]
        rfl

lemma schemaAt_backupLoop (src : DB) (names : List String) (dest : DB)
    (m : String) :
    schemaEvo (schemaAt dest m) (schemaAt (loopDB (backupLoop src names dest)) m) := by
  induction names generalizing dest with
  | nil => exact schemaEvo_refl _
  | cons n ns ih =>
    rw [backupLoop]
    by_cases hseq : n = seqName
    · rw [if_pos hseq]
      exact ih dest
    · rw [if_neg hseq]
      by_cases hE : (tableInfo src n).isEmpty = true
      · rw [if_pos hE]
        exact schemaEvo_refl _
      · rw [if_neg hE]
        have hcols : tableInfo src n ≠ [] := by
          simpa [List.isEmpty_iff] using hE
        have hevo1 := schemaAt_createTable dest n (tableInfo src n) hcols m
        rcases hIR : insertRows (createTableIfNotExists dest n (tableInfo src n)) n
            (selectAll src n) with ⟨b, dest2⟩
        have hevo2 : schemaAt dest2 m
            = schemaAt (createTableIfNotExists dest n (tableInfo src n)) m :=
          schemaAt_insertRows hIR m
        simp only [hIR]
        cases b
        · exact schemaEvo_trans hevo1 (hevo2 ▸ schemaEvo_refl _)
        · exact schemaEvo_trans (schemaEvo_trans hevo1 (hevo2 ▸ schemaEvo_refl _))
            (ih dest2)

lemma schemaAt_backup_db (src dest : DB) (t1 t2 : Nat) (m : String) :
    schemaEvo (schemaAt dest m) (schemaAt (backup_db src dest t1 t2).2 m) := by
  rw [backup_db]
  by_cases hE : (listTables src).isEmpty = true
  · rw [if_pos hE]
    exact schemaEvo_refl _
  · rw [if_neg hE]
    have hevo := schemaAt_backupLoop src (listTables src) dest m
    cases hB : backupLoop src (listTables src) dest with
    | done d =>
      rw [hB] at hevo
      exact hevo
    | failed h3 m3 d =>
      rw [hB] at hevo
      exact hevo

lemma lookupTable_createTable_other (db : DB) (n : String) (cols : List Column)
    {m : String} (hm : m ≠ n) :
    lookupTable (createTableIfNotExists db n cols) m = lookupTable db m := by
  rw [createTableIfNotExists]
  by_cases hh : hasTable db n = true
  · rw [if_pos hh]
  · rw [if_neg hh]
    rw [lookupTable, lookupTable, List.find?_append]
    rcases hfind : db.find? (fun t => t.name == m) with _ | t
    · rw [hfind, Option.none_or]
      simp [List.find?_cons, Ne.symm hm]
    · rw [hfind]
      rfl

lemma lookupTable_appendRow_other (db : DB) (n : String) (r : Row)
    {m : String} (hm : m ≠ n) :
    lookupTable (appendRow db n r) m = lookupTable db m := by
  rw [appendRow, lookupTable, lookupTable, List.find?_map,
    appendRow_name_pred n m r]
  rcases hfind : db.find? (fun t => t.name == m) with _ | t
  · rw [hfind]
    rfl
  · rw [hfind]
    have htn : (t.name == n) = false := by
      have := List.find?_some hfind
      rw [beq_iff_eq] at this
      rw [beq_eq_false_iff_ne, this]
      exact hm
    rw [Option.map_some', if_neg (by simp [htn])]

lemma lookupTable_insertRow_other {db db2 : DB} {n : String}
    {keys lits : List String} (h : insertRow db n keys lits = some db2)
    {m : String} (hm : m ≠ n) : lookupTable db2 m = lookupTable db m := by
  rw [insertRow] at h
  rcases hM : lits.mapM decodeLiteral with _ | vs
  · simp only [hM] at h
    exact Option.noConfusion h
  · simp only [hM] at h
    by_cases hh : hasTable db n = true
    · rw [if_pos hh] at h
      cases h
      exact lookupTable_appendRow_other db n (keys.zip vs) hm
    · rw [if_neg hh] at h; cases h

lemma lookupTable_insertRows_other {n : String} {rows : List Row} {db : DB}
    {b : Bool} {db2 : DB} (h : insertRows db n rows = (b, db2)) {m : String}
    (hm : m ≠ n) : lookupTable db2 m = lookupTable db m := by
  induction rows generalizing db with
  | nil =>
    rw [insertRows] at h
    cases h
    rfl
  | cons r rs ih =>
    rw [insertRows] at h
    rcases hI : insertRow db n (rowKeys r) (rowLits r) with _ | db1
    · rw [hI] at h
      cases h
      rfl
    · rw [hI] at h
      exact (ih h).trans (lookupTable_insertRow_other hI hm)

lemma lookupTable_backupLoop_seq (src : DB) (names : List String) (dest : DB) :
    lookupTable (loopDB (backupLoop src names dest)) seqName
      = lookupTable dest seqName := by
  induction names generalizing dest with
  | nil => rfl
  | cons n ns ih =>
    rw [backupLoop]
    by_cases hseq : n = seqName
    · rw [if_pos hseq]
      exact ih dest
    · rw [if_neg hseq]
      by_cases hE : (tableInfo src n).isEmpty = true
      · rw [if_pos hE]
        rfl
      · rw [if_neg hE]
        rcases hIR : insertRows (createTableIfNotExists dest n (tableInfo src n)) n
            (selectAll src n) with ⟨b, dest2⟩
        have hpres : lookupTable dest2 seqName = lookupTable dest seqName := by
          rw [lookupTable_insertRows_other hIR (fun h => hseq h.symm),
            lookupTable_createTable_other dest n (tableInfo src n)
              (fun h => hseq h.symm)]
        simp only [hIR]
        cases b
        · exact hpres
        · exact (ih dest2).trans hpres

lemma lookupTable_backup_db_seq (src dest : DB) (t1 t2 : Nat) :
    lookupTable (backup_db src dest t1 t2).2 seqName
      = lookupTable dest seqName := by
  rw [backup_db]
  by_cases hE : (listTables src).isEmpty = true
  · rw [if_pos hE]
  · rw [if_neg hE]
    have hth := lookupTable_backupLoop_seq src (listTables src) dest
    cases hB : backupLoop src (listTables src) dest with
    | done d =>
      rw [hB] at hth
      exact hth
    | failed h3 m3 d =>
      rw [hB] at hth
      exact hth

lemma hasTable_eq_false_iff {db : DB} {n : String} (h : hasTable db n = false) :
    lookupTable db n = none := by
  rw [hasTable] at h
  rw [lookupTable, List.find?_eq_none]
  exact List.any_eq_false.mp h

lemma backupLoop_append (src : DB) (xs ys : List String) (dest : DB) :
    backupLoop src (xs ++ ys) dest =
      match backupLoop src xs dest with
      | .done d => backupLoop src ys d
      | .failed h m d => .failed h m d := by
  induction xs generalizing dest with
  | nil => rfl
  | cons n ns ih =>
    rw [List.cons_append, backupLoop]
    conv_rhs => rw [backupLoop]
    by_cases hseq : n = seqName
    · rw [if_pos hseq, if_pos hseq]
      exact ih dest
    · rw [if_neg hseq, if_neg hseq]
      by_cases hE : (tableInfo src n).isEmpty = true
      · rw [if_pos hE, if_pos hE]
      · rw [if_neg hE, if_neg hE]
        rcases hIR : insertRows (createTableIfNotExists dest n (tableInfo src n)) n
            (selectAll src n) with ⟨b, dest2⟩
        simp only [hIR]
        cases b
        · rfl
        · exact ih dest2

/-! Claim theorems. -/

/-- C4 (counterexample): on an empty source the migration does not report a
zero-duration success result — it returns the informational message string
instead, so the claim's "reported as a zero-duration result" is false. -/
theorem c4_empty_source_counterexample :
    backup_db [] [] 3 7 = (.noTables "No tables available for backup.", []) ∧
      (backup_db [] [] 3 7).1 ≠ .success 0 := by
  decide

/-- C4 (amended): whenever the source database lists zero tables, both
migration directions short-circuit before issuing any statement against the
destination, report the non-fatal informational message
"No tables available for backup." (a message string, not a duration), and
leave the destination exactly as it was. -/
theorem c4_empty_source (src dest live : DB) (t1 t2 t3 t4 : Nat)
    (h : listTables src = []) :
    backup_db src dest t1 t2 = (.noTables noTablesMsg, dest) ∧
      restore_db live src t3 t4 = (.noTables noTablesMsg, live) := by
  have hsrc : src = [] := by
    cases src with
    | nil => rfl
    | cons t ts => cases h
  subst hsrc
  exact ⟨rfl, rfl⟩

/-- Witness for C4: the amended theorem applied to an empty source and a
nonempty destination. -/
theorem c4_empty_source_witness :
    backup_db [] [⟨"x", [⟨"c", "TEXT"⟩], []⟩] 3 7
        = (.noTables noTablesMsg, [⟨"x", [⟨"c", "TEXT"⟩], []⟩]) ∧
      restore_db [⟨"y", [⟨"c", "TEXT"⟩], []⟩] [] 2 6
        = (.noTables noTablesMsg, [⟨"y", [⟨"c", "TEXT"⟩], []⟩]) :=
  c4_empty_source [] [⟨"x", [⟨"c", "TEXT"⟩], []⟩] [⟨"y", [⟨"c", "TEXT"⟩], []⟩]
    3 7 2 6 (by decide)

/-- C6: the script's value serialisation encodes `null` as the engine's `NULL`
literal (which the engine parses back to null, not to the text "null" or 0),
and encodes a text value as a quote-delimited literal whose interior is the
raw text with no escaping of embedded quote characters. -/
theorem c6_value_encoding :
    toString .vNull = "NULL" ∧
      decodeLiteral (toString .vNull) = some .vNull ∧
      decodeLiteral (toString .vNull) ≠ some (.vText "null") ∧
      decodeLiteral (toString .vNull) ≠ some (.vInt 0) ∧
      (∀ s : String, (toString (.vText s)).data = sq :: (s.data ++ [sq])) := by
  refine ⟨rfl, rfl, by decide, by decide, fun s => ?_⟩
  show (sqStr ++ s ++ sqStr).data = sq :: (s.data ++ [sq])
  rw [String.data_append, String.data_append]
  rfl

/-- C7: in both migration directions the engine's reserved sequence-counter
table `sqlite_sequence` is never touched on the destination: whatever the
source holds, the destination's binding for that name (absent, or present
with its schema and rows) is exactly what it was before the migration, so no
schema is created for it and none of its rows are copied. -/
theorem c7_sequence_skip (src dest live bk : DB) (t1 t2 t3 t4 : Nat) :
    lookupTable (backup_db src dest t1 t2).2 seqName = lookupTable dest seqName ∧
      lookupTable (restore_db live bk t3 t4).2 seqName = lookupTable live seqName := by
  refine ⟨lookupTable_backup_db_seq src dest t1 t2, ?_⟩
  rw [restore_db_eq]
  exact lookupTable_backup_db_seq (stripDB bk) live t3 t4

/-- C10: restore strips the identity key only when its value is truthy — a
row read from the backup whose `_id` value is falsy (0, null, or empty text)
is inserted into the destination verbatim, `_id` pair included, so it does not
receive a fresh identity. -/
theorem c10_falsy_id_kept (bk : DB) (t1 t2 : Nat) (h : wfSource bk = true)
    (n : String) (r : Row) (v : Value) (hr : r ∈ selectAll bk n)
    (hid : r.lookup "_id" = some v) (hv : truthy v = false) :
    r ∈ selectAll (restore_db [] bk t1 t2).2 n := by
  rw [restore_db_fresh t1 t2 h, selectAll_stripDB]
  have hs : stripId r = r := stripId_of_falsy hid hv
  exact hs ▸ List.mem_map_of_mem stripId hr

/-- C1 (counterexample): the round trip fails as stated on a source whose
text value carries an embedded quote — the script serialises it without
escaping, the engine rejects the malformed insert statement, the first
migration aborts, and the second migration therefore sees an empty table, so
the final database does not have the source's rows. -/
theorem c1_round_trip_counterexample :
    (backup_db [⟨"t", [⟨"c", "TEXT"⟩], [[("c", .vText "a'b")]]⟩] [] 0 0).1
        = .aborted "SQL Execution Error" "An error occurred during SQL execution." ∧
      (backup_db
        (backup_db [⟨"t", [⟨"c", "TEXT"⟩], [[("c", .vText "a'b")]]⟩] [] 0 0).2
        [] 0 0).2.map (fun t => t.rows)
        ≠ ([⟨"t", [⟨"c", "TEXT"⟩], [[("c", Value.vText "a'b")]]⟩] : DB).map
            (fun t => t.rows) := by
  decide

/-- C1 (amended): for any well-formed source database (distinct table names,
nonempty discovered schemas, rows keyed by the discovered columns, no table
named `sqlite_sequence`) whose text values contain no embedded single-quote
character, migrating source to a fresh destination and that destination to a
second fresh database yields the same table names, the same column name/type
pairs per table (stated order-insensitively as multisets), and the same
multiset of rows per table as the original source. -/
theorem c1_round_trip (src : DB) (t1 t2 t3 t4 : Nat) (h : wfSource src = true) :
    listTables (backup_db (backup_db src [] t1 t2).2 [] t3 t4).2 = listTables src ∧
      (∀ n, (tableInfo (backup_db (backup_db src [] t1 t2).2 [] t3 t4).2 n : Multiset Column)
          = (tableInfo src n : Multiset Column)) ∧
      (∀ n, (selectAll (backup_db (backup_db src [] t1 t2).2 [] t3 t4).2 n : Multiset Row)
          = (selectAll src n : Multiset Row)) := by
  rw [backup_db_fresh t1 t2 h, backup_db_fresh t3 t4 h]
  exact ⟨rfl, fun n => rfl, fun n => rfl⟩

/-- Witness for C1: the amended round trip at the spec's `users` scenario
database (rows (1, Alice, 30) and (2, Bob, NULL)). -/
theorem c1_round_trip_witness :
    listTables (backup_db (backup_db
        [⟨"users", [⟨"_id", "INTEGER"⟩, ⟨"name", "TEXT"⟩, ⟨"age", "INTEGER"⟩],
          [[("_id", .vInt 1), ("name", .vText "Alice"), ("age", .vInt 30)],
           [("_id", .vInt 2), ("name", .vText "Bob"), ("age", .vNull)]]⟩]
        [] 3 10).2 [] 4 9).2
      = listTables
        [⟨"users", [⟨"_id", "INTEGER"⟩, ⟨"name", "TEXT"⟩, ⟨"age", "INTEGER"⟩],
          [[("_id", .vInt 1), ("name", .vText "Alice"), ("age", .vInt 30)],
           [("_id", .vInt 2), ("name", .vText "Bob"), ("age", .vNull)]]⟩] ∧
      (∀ n, (tableInfo (backup_db (backup_db
        [⟨"users", [⟨"_id", "INTEGER"⟩, ⟨"name", "TEXT"⟩, ⟨"age", "INTEGER"⟩],
          [[("_id", .vInt 1), ("name", .vText "Alice"), ("age", .vInt 30)],
           [("_id", .vInt 2), ("name", .vText "Bob"), ("age", .vNull)]]⟩]
        [] 3 10).2 [] 4 9).2 n : Multiset Column)
        = (tableInfo
        [⟨"users", [⟨"_id", "INTEGER"⟩, ⟨"name", "TEXT"⟩, ⟨"age", "INTEGER"⟩],
          [[("_id", .vInt 1), ("name", .vText "Alice"), ("age", .vInt 30)],
           [("_id", .vInt 2), ("name", .vText "Bob"), ("age", .vNull)]]⟩] n : Multiset Column)) ∧
      (∀ n, (selectAll (backup_db (backup_db
        [⟨"users", [⟨"_id", "INTEGER"⟩, ⟨"name", "TEXT"⟩, ⟨"age", "INTEGER"⟩],
          [[("_id", .vInt 1), ("name", .vText "Alice"), ("age", .vInt 30)],
           [("_id", .vInt 2), ("name", .vText "Bob"), ("age", .vNull)]]⟩]
        [] 3 10).2 [] 4 9).2 n : Multiset Row)
        = (selectAll
        [⟨"users", [⟨"_id", "INTEGER"⟩, ⟨"name", "TEXT"⟩, ⟨"age", "INTEGER"⟩],
          [[("_id", .vInt 1), ("name", .vText "Alice"), ("age", .vInt 30)],
           [("_id", .vInt 2), ("name", .vText "Bob"), ("age", .vNull)]]⟩] n : Multiset Row)) :=
  c1_round_trip
    [⟨"users", [⟨"_id", "INTEGER"⟩, ⟨"name", "TEXT"⟩, ⟨"age", "INTEGER"⟩],
      [[("_id", .vInt 1), ("name", .vText "Alice"), ("age", .vInt 30)],
       [("_id", .vInt 2), ("name", .vText "Bob"), ("age", .vNull)]]⟩]
    3 10 4 9 (by decide)

/-- C2 (counterexample): the legacy implementation does not continue the
per-table loop after a schema-read failure — the `error` helper exits the
process, so a source whose first table has an unreadable schema aborts the
whole migration and the following table is never created on the destination. -/
theorem c2_continuation_counterexample :
    (backup_db [⟨"a", [], []⟩, ⟨"b", [⟨"c", "TEXT"⟩], []⟩] [] 0 0).1
        = .aborted "SQL Execution Error"
          "The table a doesn't bloody exist in the original database." ∧
      (backup_db [⟨"a", [], []⟩, ⟨"b", [⟨"c", "TEXT"⟩], []⟩] [] 0 0).2 = [] := by
  decide

/-- C2 (amended): when describing a listed table yields zero columns, the
implementation reports an error for that table and terminates the whole
migration at that point (the `error` helper runs `process.exit(1)`, so the
`continue` after it is unreachable): the destination stays in the state the
loop had reached and no later table is processed. -/
theorem c2_abort_on_empty_schema (src dest : DB) (t1 t2 : Nat)
    (pre post : List String) (n : String) (d : DB)
    (hl : listTables src = pre ++ n :: post)
    (hpre : backupLoop src pre dest = .done d)
    (hn : n ≠ seqName) (hbad : tableInfo src n = []) :
    (backup_db src dest t1 t2).1 = .aborted sqlErrHeader (missingMsg n) ∧
      (backup_db src dest t1 t2).2 = d := by
  have hne : ¬((listTables src).isEmpty = true) := by
    rw [hl]
    simp
  have hstep : backupLoop src (listTables src) dest
      = .failed sqlErrHeader (missingMsg n) d := by
    rw [hl, backupLoop_append, hpre]
    show backupLoop src (n :: post) d = _
    rw [backupLoop, if_neg hn, if_pos (by rw [hbad]; rfl)]
  constructor
  · simp only [backup_db, if_neg hne, hstep]
  · simp only [backup_db, if_neg hne, hstep]

/-- Witness for C2: a source whose first table has an empty schema and whose
second table is healthy aborts at the first with the first's message, leaving
the fresh destination empty. -/
theorem c2_abort_on_empty_schema_witness :
    (backup_db [⟨"a", [], []⟩, ⟨"b", [⟨"c", "TEXT"⟩], []⟩] [] 5 9).1
        = .aborted sqlErrHeader (missingMsg "a") ∧
      (backup_db [⟨"a", [], []⟩, ⟨"b", [⟨"c", "TEXT"⟩], []⟩] [] 5 9).2 = [] :=
  c2_abort_on_empty_schema [⟨"a", [], []⟩, ⟨"b", [⟨"c", "TEXT"⟩], []⟩] [] 5 9
    [] ["b"] "a" [] (by decide) (by decide) (by decide) (by decide)

/-- C3: when the per-table loop reaches a listed table (not the sequence
counter) whose column-info query returns an empty sequence, the migration
reports the schema-read failure naming that table in its message and aborts,
and the final destination holds no zero-column table that was not already a
zero-column table of the destination before the migration — in particular no
zero-column table is ever created for the corrupted table. -/
theorem c3_schema_read_failure (src dest : DB) (t1 t2 : Nat)
    (pre post : List String) (n : String) (d : DB)
    (hl : listTables src = pre ++ n :: post)
    (hpre : backupLoop src pre dest = .done d)
    (hn : n ≠ seqName) (hbad : tableInfo src n = []) :
    (backup_db src dest t1 t2).1 = .aborted sqlErrHeader
        ("The table " ++ n ++ " doesn't bloody exist in the original database.") ∧
      ∀ m t, lookupTable (backup_db src dest t1 t2).2 m = some t → t.schema = [] →
        ∃ t0, lookupTable dest m = some t0 ∧ t0.schema = [] := by
  have hne : ¬((listTables src).isEmpty = true) := by
    rw [hl]
    simp
  have hstep : backupLoop src (listTables src) dest
      = .failed sqlErrHeader (missingMsg n) d := by
    rw [hl, backupLoop_append, hpre]
    show backupLoop src (n :: post) d = _
    rw [backupLoop, if_neg hn, if_pos (by rw [hbad]; rfl)]
  constructor
  · simp only [backup_db, if_neg hne, hstep]
    rfl
  · intro m t hmt hts
    have hevo := schemaAt_backup_db src dest t1 t2 m
    rcases hevo with hevo | ⟨hnone, cols, hsome, hcols⟩
    · rw [schemaAt, schemaAt, hmt, Option.map_some', hts] at hevo
      rcases hfind : lookupTable dest m with _ | t0
      · rw [hfind] at hevo
        cases hevo
      · rw [hfind, Option.map_some'] at hevo
        exact ⟨t0, rfl, (Option.some_inj.mp hevo).symm⟩
    · rw [schemaAt, hmt, Option.map_some', hts] at hsome
      exact absurd (Option.some_inj.mp hsome).symm hcols

/-- Witness for C3: a healthy first table followed by a zero-column table —
the migration copies the first, then aborts naming the second, and the final
destination has no zero-column table. -/
theorem c3_schema_read_failure_witness :
    (backup_db [⟨"p", [⟨"c", "TEXT"⟩], []⟩, ⟨"q", [], []⟩] [] 1 8).1
        = .aborted sqlErrHeader
          ("The table " ++ "q" ++ " doesn't bloody exist in the original database.") ∧
      ∀ m t, lookupTable
          (backup_db [⟨"p", [⟨"c", "TEXT"⟩], []⟩, ⟨"q", [], []⟩] [] 1 8).2 m
          = some t → t.schema = [] →
        ∃ t0, lookupTable ([] : DB) m = some t0 ∧ t0.schema = [] :=
  c3_schema_read_failure [⟨"p", [⟨"c", "TEXT"⟩], []⟩, ⟨"q", [], []⟩] [] 1 8
    ["p"] [] "q" [⟨"p", [⟨"c", "TEXT"⟩], []⟩] (by decide) (by decide)
    (by decide) (by decide)

/-- C5 (counterexample): restore does not remove the `_id` key from every row
read from the backup — a row whose `_id` value is 0 (falsy) keeps it, so its
inserted column set still contains `_id`. -/
theorem c5_identity_strip_counterexample :
    (selectAll (restore_db []
        [⟨"t", [⟨"_id", "INTEGER"⟩, ⟨"x", "TEXT"⟩],
          [[("_id", .vInt 0), ("x", .vText "a")]]⟩] 0 0).2 "t").map rowKeys
      = [["_id", "x"]] := by
  decide

/-- C5 (amended): in the restore direction into a fresh destination, each row
is inserted after passing through the strip step, which removes the `_id` key
exactly when its value is truthy — for such rows the inserted key set excludes
`_id` while every non-identity pair is kept unchanged, and a row with a falsy
`_id` is inserted verbatim; in the backup direction no key is removed, so rows
arrive in the destination exactly as read from the source. -/
theorem c5_identity_strip (bk src : DB) (t1 t2 t3 t4 : Nat)
    (hbk : wfSource bk = true) (hsrc : wfSource src = true) :
    (∀ n, selectAll (restore_db [] bk t1 t2).2 n = (selectAll bk n).map stripId) ∧
      (∀ r : Row, ∀ v, r.lookup "_id" = some v → truthy v = true →
        "_id" ∉ rowKeys (stripId r) ∧ ∀ kv ∈ r, kv.1 ≠ "_id" → kv ∈ stripId r) ∧
      (∀ r : Row, ∀ v, r.lookup "_id" = some v → truthy v = false →
        stripId r = r) ∧
      (∀ n, selectAll (backup_db src [] t3 t4).2 n = selectAll src n) := by
  refine ⟨fun n => ?_, fun r v hid hv => ⟨?_, fun kv hkv hne => ?_⟩,
    fun r v hid hv => stripId_of_falsy hid hv,
    fun n => by rw [backup_db_fresh t3 t4 hsrc]⟩
  · rw [restore_db_fresh t1 t2 hbk, selectAll_stripDB]
  · rw [stripId_of_truthy hid hv]
    intro hmem
    rw [rowKeys, List.mem_map] at hmem
    obtain ⟨kv, hkv, hfst⟩ := hmem
    have := (List.mem_filter.mp hkv).2
    rw [decide_eq_true_eq] at this
    exact this hfst
  · rw [stripId_of_truthy hid hv]
    exact List.mem_filter.mpr ⟨hkv, by rw [decide_eq_true_eq]; exact hne⟩

/-- Witness for C5: a backup with a truthy-`_id` row and a falsy-`_id` row
restored into a fresh database, and a backup direction run on a one-row
source. -/
theorem c5_identity_strip_witness :
    (∀ n, selectAll (restore_db []
        [⟨"t", [⟨"_id", "INTEGER"⟩, ⟨"x", "TEXT"⟩],
          [[("_id", .vInt 1), ("x", .vText "a")],
           [("_id", .vInt 0), ("x", .vText "b")]]⟩] 0 0).2 n
        = (selectAll
        [⟨"t", [⟨"_id", "INTEGER"⟩, ⟨"x", "TEXT"⟩],
          [[("_id", .vInt 1), ("x", .vText "a")],
           [("_id", .vInt 0), ("x", .vText "b")]]⟩] n).map stripId) ∧
      (∀ r : Row, ∀ v, r.lookup "_id" = some v → truthy v = true →
        "_id" ∉ rowKeys (stripId r) ∧ ∀ kv ∈ r, kv.1 ≠ "_id" → kv ∈ stripId r) ∧
      (∀ r : Row, ∀ v, r.lookup "_id" = some v → truthy v = false →
        stripId r = r) ∧
      (∀ n, selectAll (backup_db
        [⟨"u", [⟨"_id", "INTEGER"⟩, ⟨"y", "TEXT"⟩],
          [[("_id", .vInt 7), ("y", .vText "z")]]⟩] [] 0 0).2 n
        = selectAll
        [⟨"u", [⟨"_id", "INTEGER"⟩, ⟨"y", "TEXT"⟩],
          [[("_id", .vInt 7), ("y", .vText "z")]]⟩] n) :=
  c5_identity_strip
    [⟨"t", [⟨"_id", "INTEGER"⟩, ⟨"x", "TEXT"⟩],
      [[("_id", .vInt 1), ("x", .vText "a")],
       [("_id", .vInt 0), ("x", .vText "b")]]⟩]
    [⟨"u", [⟨"_id", "INTEGER"⟩, ⟨"y", "TEXT"⟩],
      [[("_id", .vInt 7), ("y", .vText "z")]]⟩]
    0 0 0 0 (by decide) (by decide)

/-- C8: for a well-formed source migrated into a fresh destination, every
destination table carries one column descriptor per discovered source column,
in the discovered order (the destination's `table_info` equals the source's
for every name); and creation is idempotent — for any destination, a table
whose name already exists there keeps its existing schema unchanged through
the whole migration. -/
theorem c8_schema_recreation (src dest : DB) (t1 t2 t3 t4 : Nat)
    (h : wfSource src = true) :
    (∀ n, tableInfo (backup_db src [] t1 t2).2 n = tableInfo src n) ∧
      (∀ m t0, lookupTable dest m = some t0 →
        ∃ t', lookupTable (backup_db src dest t3 t4).2 m = some t' ∧
          t'.schema = t0.schema) := by
  refine ⟨fun n => by rw [backup_db_fresh t1 t2 h], fun m t0 hm => ?_⟩
  have hevo := schemaAt_backup_db src dest t3 t4 m
  rcases hevo with hevo | ⟨hnone, _, _, _⟩
  · rw [schemaAt, schemaAt, hm, Option.map_some'] at hevo
    rcases hfind : lookupTable (backup_db src dest t3 t4).2 m with _ | t'
    · rw [hfind] at hevo
      cases hevo
    · rw [hfind, Option.map_some', Option.some.injEq] at hevo
      exact ⟨t', rfl, hevo⟩
  · rw [schemaAt, hm] at hnone
    cases hnone

/-- Witness for C8: a one-table source backed up into a fresh destination and
into a destination that already holds a table of the same name with a
different schema. -/
theorem c8_schema_recreation_witness :
    (∀ n, tableInfo (backup_db
        [⟨"t", [⟨"a", "TEXT"⟩, ⟨"b", "INTEGER"⟩], []⟩] [] 2 5).2 n
        = tableInfo [⟨"t", [⟨"a", "TEXT"⟩, ⟨"b", "INTEGER"⟩], []⟩] n) ∧
      (∀ m t0, lookupTable [⟨"t", [⟨"old", "TEXT"⟩], []⟩] m = some t0 →
        ∃ t', lookupTable (backup_db
          [⟨"t", [⟨"a", "TEXT"⟩, ⟨"b", "INTEGER"⟩], []⟩]
          [⟨"t", [⟨"old", "TEXT"⟩], []⟩] 2 5).2 m = some t' ∧
          t'.schema = t0.schema) :=
  c8_schema_recreation [⟨"t", [⟨"a", "TEXT"⟩, ⟨"b", "INTEGER"⟩], []⟩]
    [⟨"t", [⟨"old", "TEXT"⟩], []⟩] 2 5 2 5 (by decide)

/-- C9: every table actually created through the CRUD layer's `createTable`
(valid name, nonempty alphanumeric column list, name not yet present) has
`_id` as its first column, declared `INTEGER PRIMARY KEY AUTOINCREMENT`,
followed by the user columns in order. -/
theorem c9_create_table_identity (db : DB) (name : String) (cols : List String)
    (h1 : name ≠ "") (h2 : cols ≠ []) (h3 : cols.all validColumn = true)
    (h4 : hasTable db name = false) :
    ∃ db', createTable db name cols = .ok db' ∧
      ∃ t, lookupTable db' name = some t ∧
        t.schema = idColumn :: cols.map (fun c => ⟨c, ""⟩) ∧
        t.schema.head? = some ⟨"_id", "INTEGER PRIMARY KEY AUTOINCREMENT"⟩ := by
  refine ⟨createTableIfNotExists db name (idColumn :: cols.map (fun c => ⟨c, ""⟩)),
    ?_, ⟨name, idColumn :: cols.map (fun c => ⟨c, ""⟩), []⟩, ?_, rfl, rfl⟩
  · rw [createTable, if_neg h1,
      if_neg (by simpa [List.isEmpty_iff] using h2),
      if_neg (by rw [h3]; simp)]
  · rw [createTableIfNotExists, if_neg (by rw [h4]; exact Bool.false_ne_true),
      lookupTable, List.find?_append]
    have hnone := hasTable_eq_false_iff h4
    rw [lookupTable] at hnone
    rw [hnone, Option.none_or]
    simp [List.find?_cons]

/-- Witness for C9: creating `users(name, age)` in an empty database yields a
table whose first column is the auto-incrementing `_id`. -/
theorem c9_create_table_identity_witness :
    ∃ db', createTable [] "users" ["name", "age"] = .ok db' ∧
      ∃ t, lookupTable db' "users" = some t ∧
        t.schema = idColumn :: (["name", "age"].map (fun c => (⟨c, ""⟩ : Column))) ∧
        t.schema.head? = some ⟨"_id", "INTEGER PRIMARY KEY AUTOINCREMENT"⟩ :=
  c9_create_table_identity [] "users" ["name", "age"] (by decide) (by decide)
    (by decide) (by decide)

/-- Witness for C10: a backup row with `_id = 0` is restored verbatim,
keeping its `_id` column. -/
theorem c10_falsy_id_kept_witness :
    [("_id", Value.vInt 0), ("x", Value.vText "a")] ∈
      selectAll (restore_db []
        [⟨"t", [⟨"_id", "INTEGER"⟩, ⟨"x", "TEXT"⟩],
          [[("_id", Value.vInt 0), ("x", Value.vText "a")]]⟩] 0 0).2 "t" :=
  c10_falsy_id_kept
    [⟨"t", [⟨"_id", "INTEGER"⟩, ⟨"x", "TEXT"⟩],
      [[("_id", Value.vInt 0), ("x", Value.vText "a")]]⟩] 0 0 (by decide)
    "t" [("_id", Value.vInt 0), ("x", Value.vText "a")] (Value.vInt 0)
    (by decide) (by decide) (by decide)

end VetoDB
